import Mathlib

/-!
Verification of the `getmac` MAC-address resolution library
(`src/getmac/getmac.py`) against its natural-language specification.

Strings are modelled as `List Char` (`String.data`).  Python string
operations used by the source (`lower`, `strip`, `replace`, `split`,
`rstrip`, `':'.join` over 2-slices) are embedded character-for-character
for the ASCII range that the source manipulates.  Fallible Python code is
embedded with `Except Unit`: `.error ()` marks an exception propagating to
the caller; probe-level exceptions that the engine catches are a separate
`ProbeOutcome.raised` constructor.  External state (the results of
`subprocess` invocations, `socket.gethostbyname`, `socket.has_ipv6`,
`sys.platform`) is an explicit `Env` record passed to the model.
-/

namespace Getmac

/-- ASCII embedding of Python `str.lower` applied to one character
(`'A'..'Z'` map to `'a'..'z'`, everything else is unchanged). -/
def pyLowerChar (c : Char) : Char :=
  if 65 ≤ c.toNat ∧ c.toNat ≤ 90 then Char.ofNat (c.toNat + 32) else c

/-- The characters Python `str.strip` / `str.split` treat as whitespace
(ASCII range): space, tab, LF, VT, FF, CR. -/
def pyIsSpace (c : Char) : Bool :=
  c.toNat = 32 || c.toNat = 9 || c.toNat = 10 ||
  c.toNat = 11 || c.toNat = 12 || c.toNat = 13

/-- Python `str.strip()`: drop whitespace from both ends. -/
def pyStrip (cs : List Char) : List Char :=
  ((cs.dropWhile pyIsSpace).reverse.dropWhile pyIsSpace).reverse

/-- Python `str.rstrip()`: drop whitespace from the right end only. -/
def pyRStrip (cs : List Char) : List Char :=
  (cs.reverse.dropWhile pyIsSpace).reverse

/-- Python `"':'.join(mac[i:i + 2] for i in range(0, len(mac), 2))"`
(getmac.py line 135): regroup the characters in slices of two and join the
slices with a colon. -/
def insertColons : List Char → List Char
  | [] => []
  | [a] => [a]
  | [a, b] => [a, b]
  | a :: b :: rest => a :: b :: ':' :: insertColons rest

/-- The intermediate string built by getmac.py line 130:
`str(mac).lower().strip().replace('-', ':').replace(' ', '')`. -/
def normIntermediate (raw : List Char) : List Char :=
  ((pyStrip (raw.map pyLowerChar)).map
    (fun c => if c = '-' then ':' else c)).filter (fun c => c ≠ ' ')

/-- The condition getmac.py line 133 uses to decide whether to insert
colons: `len(mac) == 12` on the intermediate string. -/
def codeColonCondition (raw : List Char) : Bool :=
  (normIntermediate raw).length = 12

/-- The normalization block of `get_mac_address` (getmac.py lines
126-141): lowercase / strip / replace hyphens with colons / remove
spaces, then insert colons whenever the length is 12, and finally demand
length exactly 17, returning `None` otherwise. -/
def normalizeChars (raw : List Char) : Option (List Char) :=
  let m1 := normIntermediate raw
  let m2 := if m1.length = 12 then insertColons m1 else m1
  if m2.length ≠ 17 then none else some m2

/-- Lowercase hexadecimal digit (`0-9`, `a-f`). -/
def isHexLowerDigit (c : Char) : Bool :=
  (48 ≤ c.toNat && c.toNat ≤ 57) || (97 ≤ c.toNat && c.toNat ≤ 102)

/-- Hexadecimal digit of either case (`0-9`, `a-f`, `A-F`). -/
def isHexAnyDigit (c : Char) : Bool :=
  (48 ≤ c.toNat && c.toNat ≤ 57) || (97 ≤ c.toNat && c.toNat ≤ 102) ||
  (65 ≤ c.toNat && c.toNat ≤ 70)

/-- Canonical MAC address as the spec words it: six octets as lowercase
two-hex-digit groups joined by colons, 17 characters in total. -/
def isCanonicalMac : List Char → Bool
  | [a1, a2, s1, b1, b2, s2, c1, c2, s3, d1, d2, s4, e1, e2, s5, f1, f2] =>
    isHexLowerDigit a1 && isHexLowerDigit a2 && (s1 == ':') &&
    isHexLowerDigit b1 && isHexLowerDigit b2 && (s2 == ':') &&
    isHexLowerDigit c1 && isHexLowerDigit c2 && (s3 == ':') &&
    isHexLowerDigit d1 && isHexLowerDigit d2 && (s4 == ':') &&
    isHexLowerDigit e1 && isHexLowerDigit e2 && (s5 == ':') &&
    isHexLowerDigit f1 && isHexLowerDigit f2
  | _ => false

/-- Hyphen-separated MAC with hex digits of either case, as captured by
the `ipconfig /all` pattern of `_windows_ipconfig_by_interface`
(getmac.py line 191): `([0-9a-fA-F]{2}(?:-[0-9a-fA-F]{2}){5})`. -/
def isHyphenMacAny : List Char → Bool
  | [a1, a2, s1, b1, b2, s2, c1, c2, s3, d1, d2, s4, e1, e2, s5, f1, f2] =>
    isHexAnyDigit a1 && isHexAnyDigit a2 && (s1 == '-') &&
    isHexAnyDigit b1 && isHexAnyDigit b2 && (s2 == '-') &&
    isHexAnyDigit c1 && isHexAnyDigit c2 && (s3 == '-') &&
    isHexAnyDigit d1 && isHexAnyDigit d2 && (s4 == '-') &&
    isHexAnyDigit e1 && isHexAnyDigit e2 && (s5 == '-') &&
    isHexAnyDigit f1 && isHexAnyDigit f2
  | _ => false

/-- The condition under which the spec says the colon-insertion step is
applied, stated from the spec words: the intermediate result "has no
colons and is exactly 12 hex characters". -/
def specColonCondition (raw : List Char) : Bool :=
  let m := normIntermediate raw
  (!m.contains ':') && m.length = 12 && m.all isHexAnyDigit

/-- Names for the platform probe functions of getmac.py that the engine
dispatches (lines 72, 74-75, 103, 106-108). -/
inductive ProbeId where
  | windows_get_remote_mac
  | windows_ipconfig_by_interface
  | unix_ip_arp_command
  | unix_ip_cat_arp
  | unix_ip_ip_command
  | unix_ifconfig_by_interface
  | unix_interface_ip_command
  | unix_netstat_by_interface
  | unix_fcntl_by_interface
  | unix_lanscan_interface
deriving DecidableEq, Repr

/-- Outcome of invoking one probe on the resolved argument: the probe may
raise (caught by the engine's `except Exception` at line 116) or return a
Python value; a returned value is `none` (Python `None`) or a candidate
string (non-string returns such as `_find_mac`'s `int` are represented by
their `str()` rendering, which is the only way line 130 consumes them). -/
inductive ProbeOutcome where
  | raised
  | value : Option (List Char) → ProbeOutcome
deriving DecidableEq, Repr

/-- One priming `_popen("ping"/"ping6", args)` invocation (lines 59-66).
`args` is `none` exactly in the Windows branch when both `ip` and `ip6`
are Python `None` (the conditional expression at line 61 then passes
`None` to `_popen`). -/
structure PingCall where
  cmd : List Char
  args : Option (List Char)
deriving DecidableEq, Repr

/-- Python `"%s" % x` for an optional string: `None` prints as "None". -/
def pyStrOfOpt : Option (List Char) → List Char
  | some s => s
  | none => "None".data

/-- The priming command built at lines 59-66 of getmac.py. -/
def mkPingCall (isWin32 : Bool) (ip ip6 : Option (List Char)) : PingCall :=
  if isWin32 then
    { cmd := "ping".data,
      args := match ip with
              | some i => some ("-n 1 ".data ++ i)
              | none => ip6 }
  else
    match ip with
    | some i => { cmd := "ping".data, args := some ("-c 1 ".data ++ i) }
    | none => { cmd := "ping6".data,
                args := some ("-c 1 ".data ++ pyStrOfOpt ip6) }

/-- The execution environment of one `get_mac_address` call: the platform
test `sys.platform == 'win32'`, `socket.has_ipv6`, the behaviour of
`socket.gethostbyname`, the outcome of the unguarded priming `_popen`
(`.error ()` models `CalledProcessError`/`OSError` escaping), the outcome
of `_unix_default_interface_ip_command()` (line 97, whose internal
`_popen` is likewise unguarded), and the outcome of each probe on each
argument. -/
structure Env where
  isWin32 : Bool
  hasIpv6 : Bool
  gethostbyname : List Char → Except Unit (List Char)
  pingResult : PingCall → Except Unit Unit
  defaultIfaceResult : Except Unit (Option (List Char))
  probeRun : ProbeId → List Char → ProbeOutcome

/-- Outcome of one probe as the engine sees it.  `_unix_ip_ip_command`
(getmac.py line 225-226) is a bare `pass` and therefore always returns
`None`, independent of the environment; every other probe's outcome comes
from the environment. -/
def probeOutcome (env : Env) (id : ProbeId) (arg : List Char) : ProbeOutcome :=
  match id with
  | .unix_ip_ip_command => .value none
  | _ => env.probeRun id arg

/-- The probe loop of `get_mac_address` (getmac.py lines 113-123): try
each function in order; on an exception or a `None` return continue with
the next; break at the first non-`None` value.  Returns the winning
candidate (if any) together with the list of probes actually invoked. -/
def tryFuncs : List (ProbeId × ProbeOutcome) → Option (List Char) × List ProbeId
  | [] => (none, [])
  | (i, .raised) :: rest =>
    let r := tryFuncs rest
    (r.1, i :: r.2)
  | (i, .value none) :: rest =>
    let r := tryFuncs rest
    (r.1, i :: r.2)
  | (i, .value (some m)) :: _ => (some m, [i])

/-- Everything one `get_mac_address` call did: the priming commands it
issued, whether it issued the `warnings.warn` at line 81, the probes it
invoked, and the value returned to the caller (`.error ()` = an exception
escaped). -/
structure CallResult where
  pings : List PingCall
  warned : Bool
  invoked : List ProbeId
  result : Except Unit (Option (List Char))
deriving Repr

/-- Tail of `get_mac_address` once the probe list and argument are fixed:
run the loop (lines 113-123) and normalize the winner (lines 126-141). -/
def finishProbes (env : Env) (pings : List PingCall)
    (funcs : List ProbeId) (arg : List Char) : CallResult :=
  let r := tryFuncs (funcs.map (fun f => (f, probeOutcome env f arg)))
  { pings := pings, warned := false, invoked := r.2,
    result := .ok (match r.1 with
                   | none => none
                   | some c => normalizeChars c) }

/-- Resolution of the local-interface argument (getmac.py lines 88-99):
`str(interface)` if given, a hardcoded `'Ethernet 1'` on Windows, and
otherwise the unguarded `_unix_default_interface_ip_command()` with
fallback `'eth0'` when it matched nothing. -/
def resolveIfaceArg (env : Env) (interface : Option (List Char)) :
    Except Unit (List Char) :=
  match interface with
  | some i => Except.ok i
  | none =>
    if env.isWin32 then Except.ok ("Ethernet 1".data)
    else
      match env.defaultIfaceResult with
      | .error e => .error e
      | .ok (some d) => .ok d
      | .ok none => .ok ("eth0".data)

/-- Branch selection of `get_mac_address` after hostname resolution and
the priming ping (getmac.py lines 69-108), followed by the probe loop and
normalization. -/
def afterPing (env : Env) (pings : List PingCall)
    (interface ip ip6 : Option (List Char)) : CallResult :=
  match ip with
  | some ipa =>
    finishProbes env pings
      (if env.isWin32 then [.windows_get_remote_mac]
       else [.unix_ip_arp_command, .unix_ip_cat_arp, .unix_ip_ip_command])
      ipa
  | none =>
    match ip6 with
    | some ip6a =>
      if !env.hasIpv6 then
        { pings := pings, warned := true, invoked := [], result := .ok none }
      else
        finishProbes env pings [] ip6a
    | none =>
      match resolveIfaceArg env interface with
      | .error e =>
        { pings := pings, warned := false, invoked := [], result := .error e }
      | .ok arg =>
        finishProbes env pings
          (if env.isWin32 then [.windows_ipconfig_by_interface]
           else [.unix_ifconfig_by_interface, .unix_interface_ip_command,
                 .unix_netstat_by_interface, .unix_fcntl_by_interface,
                 .unix_lanscan_interface])
          arg

/-- Hostname resolution step of `get_mac_address` (getmac.py lines
52-54): `ip = socket.gethostbyname(hostname)` overwrites `ip`; the call
is not guarded, so its failure propagates. -/
def resolveHost (env : Env) (ip hostname : Option (List Char)) :
    Except Unit (Option (List Char)) :=
  match hostname with
  | some h =>
    match env.gethostbyname h with
    | .error e => .error e
    | .ok a => Except.ok (some a)
  | none => Except.ok ip

/-- `get_mac_address` after hostname resolution: if `network_request`,
issue the unguarded priming `_popen` (getmac.py lines 59-66, whose
failure propagates), then dispatch (lines 69-141). -/
def afterResolve (env : Env) (interface ip ip6 : Option (List Char))
    (network_request : Bool) : CallResult :=
  if network_request then
    let pc := mkPingCall env.isWin32 ip ip6
    match env.pingResult pc with
    | .error e =>
      { pings := [pc], warned := false, invoked := [], result := .error e }
    | .ok _ => afterPing env [pc] interface ip ip6
  else
    afterPing env [] interface ip ip6

/-- Shallow embedding of `get_mac_address(interface, ip, ip6, hostname,
network_request)` (getmac.py lines 25-141).  In source order: resolve a
hostname with the unguarded `socket.gethostbyname` (line 54); if
`network_request`, issue the unguarded priming `_popen` (lines 59-66);
select the probe list (lines 69-108); run the loop (lines 113-123);
normalize (lines 126-141). -/
def get_mac_address (env : Env) (interface ip ip6 hostname : Option (List Char))
    (network_request : Bool) : CallResult :=
  match resolveHost env ip hostname with
  | .error e => { pings := [], warned := false, invoked := [], result := .error e }
  | .ok ip => afterResolve env interface ip ip6 network_request

/-- Which candidate strings each probe can hand to the engine, read off
the probe's source: the regex capture groups of lines 189-191, 206-207,
220-221, 230-231, 236, 246-247 (`group_index` 0 for
`_unix_ifconfig_by_interface` selects the `(HWaddr|Ether)` group), the
`'%02x'`-formatted bytes of lines 200 and 175-182, and the `str()`
rendering of the `int` in 1..15 that `_find_mac` can return for
`lanscan` (at most two decimal characters). -/
def candidateShapeOk : ProbeId → List Char → Bool
  | .windows_get_remote_mac, cs => cs.length = 12 && cs.all isHexLowerDigit
  | .windows_ipconfig_by_interface, cs => isHyphenMacAny cs
  | .unix_ip_arp_command, cs => isCanonicalMac cs
  | .unix_ip_cat_arp, cs => isCanonicalMac cs
  | .unix_ip_ip_command, _ => false
  | .unix_ifconfig_by_interface, cs =>
    cs = "HWaddr".data || cs = "Ether".data
  | .unix_interface_ip_command, cs => isCanonicalMac cs
  | .unix_netstat_by_interface, cs => isCanonicalMac cs
  | .unix_fcntl_by_interface, cs => isCanonicalMac cs
  | .unix_lanscan_interface, cs => cs.length ≤ 2

/-- A probe outcome is consistent with its source if, whenever it yields
a candidate, the candidate has the shape its source can produce. -/
def shapeOutcomeOk (id : ProbeId) : ProbeOutcome → Bool
  | .raised => true
  | .value none => true
  | .value (some c) => candidateShapeOk id c

theorem dropWhileLengthLe {α : Type} (p : α → Bool) :
    ∀ l : List α, (l.dropWhile p).length ≤ l.length
  | [] => Nat.le_refl _
  | a :: l => by
    rw [List.dropWhile_cons]
    by_cases h : p a = true
    · simp only [h, if_true]
      exact Nat.le_trans (dropWhileLengthLe p l) (Nat.le_succ _)
    · simp [h]

/-- Helper for `pySplit`: `acc` is the reversed current word. -/
def pySplitAux : List Char → List Char → List (List Char)
  | [], acc => if acc.isEmpty then [] else [acc.reverse]
  | c :: rest, acc =>
    if pyIsSpace c then
      if acc.isEmpty then pySplitAux rest []
      else acc.reverse :: pySplitAux rest []
    else pySplitAux rest (c :: acc)

/-- Python `str.split()` with no argument: split on runs of whitespace,
producing no empty words. -/
def pySplit (cs : List Char) : List (List Char) :=
  pySplitAux cs []

/-- Value of one hexadecimal digit, either case. -/
def hexDigitVal (c : Char) : Option Nat :=
  if 48 ≤ c.toNat ∧ c.toNat ≤ 57 then some (c.toNat - 48)
  else if 97 ≤ c.toNat ∧ c.toNat ≤ 102 then some (c.toNat - 87)
  else if 65 ≤ c.toNat ∧ c.toNat ≤ 70 then some (c.toNat - 55)
  else none

def parseHexGo : List Char → Nat → Option Nat
  | [], acc => some acc
  | c :: rest, acc =>
    match hexDigitVal c with
    | none => none
    | some v => parseHexGo rest (acc * 16 + v)

/-- Python `int(s, 16)` for the plain unsigned digit strings that reach
it in `_find_mac` (empty or non-digit input models the `ValueError`). -/
def parseHexNat : List Char → Option Nat
  | [] => none
  | c :: rest => parseHexGo (c :: rest) 0

/-- The words of one "line" of `_find_mac`'s loop (getmac.py lines
304-305): `proc` is a string, so `for line in proc` iterates single
characters, and `str(line).lower().rstrip().split()` yields at most one
single-character word. -/
def lineWords (c : Char) : List (List Char) :=
  pySplit (pyRStrip ([c].map pyLowerChar))

/-- Body of the inner loop of `_find_mac` for the remaining indices `is`
of `range(len(words))` (getmac.py lines 306-311): where `words[i]` equals
a hardware identifier, parse `words[get_index(i)].replace(':', '')` as
hex (`ValueError` and `IndexError` propagate as `.error`, caught by the
engine) and return the value if non-zero. -/
def findMacIdx (words hw : List (List Char)) (gi : Nat → Nat) :
    List Nat → Except Unit (Option Nat)
  | [] => .ok none
  | i :: is =>
    match words.get? i with
    | none => .ok none
    | some wi =>
      if wi ∈ hw then
        match words.get? (gi i) with
        | none => .error ()
        | some word =>
          match parseHexNat (word.filter (fun c => c ≠ ':')) with
          | none => .error ()
          | some mac =>
            if mac ≠ 0 then .ok (some mac)
            else findMacIdx words hw gi is
      else findMacIdx words hw gi is

/-- Inner loop of `_find_mac`: `for i in range(len(words))`. -/
def findMacInner (words hw : List (List Char)) (gi : Nat → Nat) :
    Except Unit (Option Nat) :=
  findMacIdx words hw gi (List.range words.length)

/-- `_find_mac(command, args, hw_identifiers, get_index)` (getmac.py
lines 302-311) applied to the text `_popen` returned (a raising `_popen`
is a raising probe and is modelled at the engine level). -/
def find_mac (output : List Char) (hw : List (List Char)) (gi : Nat → Nat) :
    Except Unit (Option Nat) :=
  match output with
  | [] => .ok none
  | c :: rest =>
    match findMacInner (lineWords c) hw gi with
    | .error e => .error e
    | .ok (some m) => .ok (some m)
    | .ok none => find_mac rest hw gi

/-- `_unix_lanscan_interface` (getmac.py lines 240-242):
`_find_mac('lanscan', '-ai', [interface], lambda i: 0)`. -/
def unix_lanscan_interface (output iface : List Char) : Except Unit (Option Nat) :=
  find_mac output [iface] (fun _ => 0)

/-- Unix environment in which the external world fails: name resolution
raises, the priming ping exits non-zero, default-interface discovery
finds nothing, and every probe returns `None`. -/
def envAllFail : Env where
  isWin32 := false
  hasIpv6 := true
  gethostbyname := fun _ => .error ()
  pingResult := fun _ => .error ()
  defaultIfaceResult := .ok none
  probeRun := fun _ _ => .value none

/-- Unix environment in which the priming ping succeeds and every probe
returns `None`. -/
def envPingOk : Env where
  isWin32 := false
  hasIpv6 := true
  gethostbyname := fun _ => .ok ("192.0.2.1".data)
  pingResult := fun _ => .ok ()
  defaultIfaceResult := .ok none
  probeRun := fun _ _ => .value none

/-- Unix environment without IPv6 support whose priming ping fails. -/
def envNoIpv6 : Env where
  isWin32 := false
  hasIpv6 := false
  gethostbyname := fun _ => .error ()
  pingResult := fun _ => .error ()
  defaultIfaceResult := .ok none
  probeRun := fun _ _ => .value none

/-- Unix environment in which the first interface probe returns `None`,
the second (`ip link`) finds a canonical address, and the rest would also
answer (they are never reached). -/
def envSecondProbeWins : Env where
  isWin32 := false
  hasIpv6 := true
  gethostbyname := fun _ => .error ()
  pingResult := fun _ => .ok ()
  defaultIfaceResult := .ok none
  probeRun := fun id _ =>
    match id with
    | .unix_interface_ip_command => .value (some ("aa:bb:cc:dd:ee:ff".data))
    | .unix_netstat_by_interface => .value (some ("11:22:33:44:55:66".data))
    | _ => .value none

theorem hexLowerAny (c : Char) (h : isHexLowerDigit c = true) :
    isHexAnyDigit c = true := by
  simp only [isHexLowerDigit, Bool.or_eq_true, Bool.and_eq_true,
    decide_eq_true_eq] at h
  simp only [isHexAnyDigit, Bool.or_eq_true, Bool.and_eq_true,
    decide_eq_true_eq]
  omega

theorem hexLowerFacts (c : Char) (h : isHexLowerDigit c = true) :
    pyLowerChar c = c ∧ pyIsSpace c = false ∧ c ≠ '-' ∧ c ≠ ' ' := by
  simp only [isHexLowerDigit, Bool.or_eq_true, Bool.and_eq_true,
    decide_eq_true_eq] at h
  refine ⟨?_, ?_, ?_, ?_⟩
  · unfold pyLowerChar
    rw [if_neg]
    omega
  · simp only [pyIsSpace, Bool.or_eq_false_iff, decide_eq_false_iff_not]
    omega
  · intro heq
    rw [heq] at h
    revert h
    decide
  · intro heq
    rw [heq] at h
    revert h
    decide

theorem hexAnyFacts (c : Char) (h : isHexAnyDigit c = true) :
    isHexLowerDigit (pyLowerChar c) = true ∧
    pyIsSpace (pyLowerChar c) = false ∧
    pyLowerChar c ≠ '-' ∧ pyLowerChar c ≠ ' ' := by
  simp only [isHexAnyDigit, Bool.or_eq_true, Bool.and_eq_true,
    decide_eq_true_eq] at h
  rcases h with (h | h) | h
  · have hl : isHexLowerDigit c = true := by
      simp only [isHexLowerDigit, Bool.or_eq_true, Bool.and_eq_true,
        decide_eq_true_eq]
      omega
    obtain ⟨e, h2, h3, h4⟩ := hexLowerFacts c hl
    rw [e]
    exact ⟨hl, h2, h3, h4⟩
  · have hl : isHexLowerDigit c = true := by
      simp only [isHexLowerDigit, Bool.or_eq_true, Bool.and_eq_true,
        decide_eq_true_eq]
      omega
    obtain ⟨e, h2, h3, h4⟩ := hexLowerFacts c hl
    rw [e]
    exact ⟨hl, h2, h3, h4⟩
  · have e : pyLowerChar c = Char.ofNat (c.toNat + 32) := by
      unfold pyLowerChar; rw [if_pos]; omega
    have hc : c.toNat = 65 ∨ c.toNat = 66 ∨ c.toNat = 67 ∨ c.toNat = 68 ∨
        c.toNat = 69 ∨ c.toNat = 70 := by omega
    rcases hc with hc | hc | hc | hc | hc | hc <;> rw [e, hc] <;> decide

theorem mapIdOf {α : Type} (f : α → α) :
    ∀ cs : List α, (∀ c ∈ cs, f c = c) → cs.map f = cs
  | [], _ => rfl
  | a :: l, h => by
    rw [List.map_cons, h a (List.mem_cons_self a l),
      mapIdOf f l (fun c hc => h c (List.mem_cons_of_mem a hc))]

theorem dropWhileEqSelf (p : Char → Bool) (cs : List Char)
    (h : ∀ c ∈ cs, p c = false) : cs.dropWhile p = cs := by
  cases cs with
  | nil => rfl
  | cons a l =>
    rw [List.dropWhile_cons, h a (List.mem_cons_self a l)]
    simp

theorem filterEqSelf (p : Char → Bool) :
    ∀ cs : List Char, (∀ c ∈ cs, p c = true) → cs.filter p = cs
  | [], _ => rfl
  | a :: l, h => by
    rw [List.filter_cons_of_pos (h a (List.mem_cons_self a l)),
      filterEqSelf p l (fun c hc => h c (List.mem_cons_of_mem a hc))]

theorem pyStripEqSelf (cs : List Char) (h : ∀ c ∈ cs, pyIsSpace c = false) :
    pyStrip cs = cs := by
  unfold pyStrip
  rw [dropWhileEqSelf _ _ h,
    dropWhileEqSelf _ _ (fun c hc => h c (List.mem_reverse.mp hc)),
    List.reverse_reverse]

/-- On input whose lowercased characters are not whitespace, not hyphens
and not spaces, the intermediate of the normalizer is just the lowercased
input. -/
theorem normIntermediateLower (cs : List Char)
    (h : ∀ c ∈ cs.map pyLowerChar, pyIsSpace c = false ∧ c ≠ '-' ∧ c ≠ ' ') :
    normIntermediate cs = cs.map pyLowerChar := by
  unfold normIntermediate
  rw [pyStripEqSelf _ (fun c hc => (h c hc).1),
    mapIdOf _ _ (fun c hc => if_neg (h c hc).2.1),
    filterEqSelf _ _ (fun c hc => by
      simp only [decide_eq_true_eq]
      exact (h c hc).2.2)]

theorem pyStripLengthLe (cs : List Char) : (pyStrip cs).length ≤ cs.length := by
  unfold pyStrip
  rw [List.length_reverse]
  refine Nat.le_trans (dropWhileLengthLe _ _) ?_
  rw [List.length_reverse]
  exact dropWhileLengthLe _ _

theorem normIntermediateLengthLe (cs : List Char) :
    (normIntermediate cs).length ≤ cs.length := by
  unfold normIntermediate
  refine Nat.le_trans (List.length_filter_le _ _) ?_
  rw [List.length_map]
  refine Nat.le_trans (pyStripLengthLe _) ?_
  rw [List.length_map]

/-- A raw candidate shorter than 12 characters always normalizes to
`None`: the intermediate can only shrink, so it can reach neither length
12 nor length 17. -/
theorem normShort (cs : List Char) (h : cs.length < 12) :
    normalizeChars cs = none := by
  have hle := normIntermediateLengthLe cs
  have h12 : ¬((normIntermediate cs).length = 12) := by omega
  simp only [normalizeChars]
  rw [if_neg h12, if_pos (by omega)]

theorem destruct12 {α : Type} (cs : List α) (h : cs.length = 12) :
    ∃ x1 x2 x3 x4 x5 x6 x7 x8 x9 x10 x11 x12,
      cs = [x1, x2, x3, x4, x5, x6, x7, x8, x9, x10, x11, x12] := by
  rcases cs with _ | ⟨x1, cs⟩
  · simp at h
  rcases cs with _ | ⟨x2, cs⟩
  · simp at h
  rcases cs with _ | ⟨x3, cs⟩
  · simp at h
  rcases cs with _ | ⟨x4, cs⟩
  · simp at h
  rcases cs with _ | ⟨x5, cs⟩
  · simp at h
  rcases cs with _ | ⟨x6, cs⟩
  · simp at h
  rcases cs with _ | ⟨x7, cs⟩
  · simp at h
  rcases cs with _ | ⟨x8, cs⟩
  · simp at h
  rcases cs with _ | ⟨x9, cs⟩
  · simp at h
  rcases cs with _ | ⟨x10, cs⟩
  · simp at h
  rcases cs with _ | ⟨x11, cs⟩
  · simp at h
  rcases cs with _ | ⟨x12, cs⟩
  · simp at h
  rcases cs with _ | ⟨x13, cs⟩
  · exact ⟨x1, x2, x3, x4, x5, x6, x7, x8, x9, x10, x11, x12, rfl⟩
  · simp only [List.length_cons] at h
    omega

theorem canonicalDestruct (cs : List Char) (h : isCanonicalMac cs = true) :
    ∃ a1 a2 b1 b2 c1 c2 d1 d2 e1 e2 f1 f2,
      cs = [a1, a2, ':', b1, b2, ':', c1, c2, ':', d1, d2, ':',
            e1, e2, ':', f1, f2] ∧
      isHexLowerDigit a1 = true ∧ isHexLowerDigit a2 = true ∧
      isHexLowerDigit b1 = true ∧ isHexLowerDigit b2 = true ∧
      isHexLowerDigit c1 = true ∧ isHexLowerDigit c2 = true ∧
      isHexLowerDigit d1 = true ∧ isHexLowerDigit d2 = true ∧
      isHexLowerDigit e1 = true ∧ isHexLowerDigit e2 = true ∧
      isHexLowerDigit f1 = true ∧ isHexLowerDigit f2 = true := by
  rcases cs with _ | ⟨x1, cs⟩
  · simp [isCanonicalMac] at h
  rcases cs with _ | ⟨x2, cs⟩
  · simp [isCanonicalMac] at h
  rcases cs with _ | ⟨x3, cs⟩
  · simp [isCanonicalMac] at h
  rcases cs with _ | ⟨x4, cs⟩
  · simp [isCanonicalMac] at h
  rcases cs with _ | ⟨x5, cs⟩
  · simp [isCanonicalMac] at h
  rcases cs with _ | ⟨x6, cs⟩
  · simp [isCanonicalMac] at h
  rcases cs with _ | ⟨x7, cs⟩
  · simp [isCanonicalMac] at h
  rcases cs with _ | ⟨x8, cs⟩
  · simp [isCanonicalMac] at h
  rcases cs with _ | ⟨x9, cs⟩
  · simp [isCanonicalMac] at h
  rcases cs with _ | ⟨x10, cs⟩
  · simp [isCanonicalMac] at h
  rcases cs with _ | ⟨x11, cs⟩
  · simp [isCanonicalMac] at h
  rcases cs with _ | ⟨x12, cs⟩
  · simp [isCanonicalMac] at h
  rcases cs with _ | ⟨x13, cs⟩
  · simp [isCanonicalMac] at h
  rcases cs with _ | ⟨x14, cs⟩
  · simp [isCanonicalMac] at h
  rcases cs with _ | ⟨x15, cs⟩
  · simp [isCanonicalMac] at h
  rcases cs with _ | ⟨x16, cs⟩
  · simp [isCanonicalMac] at h
  rcases cs with _ | ⟨x17, cs⟩
  · simp [isCanonicalMac] at h
  rcases cs with _ | ⟨x18, cs⟩
  · simp only [isCanonicalMac, Bool.and_eq_true, beq_iff_eq, and_assoc] at h
    obtain ⟨q1, q2, s1, q3, q4, s2, q5, q6, s3, q7, q8, s4, q9, q10, s5,
      q11, q12⟩ := h
    subst s1 s2 s3 s4 s5
    exact ⟨x1, x2, x4, x5, x7, x8, x10, x11, x13, x14, x16, x17, rfl,
      q1, q2, q3, q4, q5, q6, q7, q8, q9, q10, q11, q12⟩
  · simp [isCanonicalMac] at h

theorem hyphenDestruct (cs : List Char) (h : isHyphenMacAny cs = true) :
    ∃ a1 a2 b1 b2 c1 c2 d1 d2 e1 e2 f1 f2,
      cs = [a1, a2, '-', b1, b2, '-', c1, c2, '-', d1, d2, '-',
            e1, e2, '-', f1, f2] ∧
      isHexAnyDigit a1 = true ∧ isHexAnyDigit a2 = true ∧
      isHexAnyDigit b1 = true ∧ isHexAnyDigit b2 = true ∧
      isHexAnyDigit c1 = true ∧ isHexAnyDigit c2 = true ∧
      isHexAnyDigit d1 = true ∧ isHexAnyDigit d2 = true ∧
      isHexAnyDigit e1 = true ∧ isHexAnyDigit e2 = true ∧
      isHexAnyDigit f1 = true ∧ isHexAnyDigit f2 = true := by
  rcases cs with _ | ⟨x1, cs⟩
  · simp [isHyphenMacAny] at h
  rcases cs with _ | ⟨x2, cs⟩
  · simp [isHyphenMacAny] at h
  rcases cs with _ | ⟨x3, cs⟩
  · simp [isHyphenMacAny] at h
  rcases cs with _ | ⟨x4, cs⟩
  · simp [isHyphenMacAny] at h
  rcases cs with _ | ⟨x5, cs⟩
  · simp [isHyphenMacAny] at h
  rcases cs with _ | ⟨x6, cs⟩
  · simp [isHyphenMacAny] at h
  rcases cs with _ | ⟨x7, cs⟩
  · simp [isHyphenMacAny] at h
  rcases cs with _ | ⟨x8, cs⟩
  · simp [isHyphenMacAny] at h
  rcases cs with _ | ⟨x9, cs⟩
  · simp [isHyphenMacAny] at h
  rcases cs with _ | ⟨x10, cs⟩
  · simp [isHyphenMacAny] at h
  rcases cs with _ | ⟨x11, cs⟩
  · simp [isHyphenMacAny] at h
  rcases cs with _ | ⟨x12, cs⟩
  · simp [isHyphenMacAny] at h
  rcases cs with _ | ⟨x13, cs⟩
  · simp [isHyphenMacAny] at h
  rcases cs with _ | ⟨x14, cs⟩
  · simp [isHyphenMacAny] at h
  rcases cs with _ | ⟨x15, cs⟩
  · simp [isHyphenMacAny] at h
  rcases cs with _ | ⟨x16, cs⟩
  · simp [isHyphenMacAny] at h
  rcases cs with _ | ⟨x17, cs⟩
  · simp [isHyphenMacAny] at h
  rcases cs with _ | ⟨x18, cs⟩
  · simp only [isHyphenMacAny, Bool.and_eq_true, beq_iff_eq, and_assoc] at h
    obtain ⟨q1, q2, s1, q3, q4, s2, q5, q6, s3, q7, q8, s4, q9, q10, s5,
      q11, q12⟩ := h
    subst s1 s2 s3 s4 s5
    exact ⟨x1, x2, x4, x5, x7, x8, x10, x11, x13, x14, x16, x17, rfl,
      q1, q2, q3, q4, q5, q6, q7, q8, q9, q10, q11, q12⟩
  · simp [isHyphenMacAny] at h

/-- Normalization is the identity (up to `some`) on canonical
addresses. -/
theorem normCanonical (cs : List Char) (h : isCanonicalMac cs = true) :
    normalizeChars cs = some cs := by
  obtain ⟨a1, a2, b1, b2, c1, c2, d1, d2, e1, e2, f1, f2, rfl,
    q1, q2, q3, q4, q5, q6, q7, q8, q9, q10, q11, q12⟩ := canonicalDestruct cs h
  have colonFacts : pyLowerChar ':' = ':' ∧ pyIsSpace ':' = false ∧
      (':' : Char) ≠ '-' ∧ (':' : Char) ≠ ' ' := by decide
  have hmem : ∀ c ∈ [a1, a2, ':', b1, b2, ':', c1, c2, ':', d1, d2, ':',
      e1, e2, ':', f1, f2],
      pyLowerChar c = c ∧ pyIsSpace c = false ∧ c ≠ '-' ∧ c ≠ ' ' := by
    intro c hc
    simp only [List.mem_cons, List.not_mem_nil, or_false] at hc
    rcases hc with rfl | rfl | rfl | rfl | rfl | rfl | rfl | rfl | rfl | rfl |
      rfl | rfl | rfl | rfl | rfl | rfl | rfl
    · exact hexLowerFacts _ q1
    · exact hexLowerFacts _ q2
    · exact colonFacts
    · exact hexLowerFacts _ q3
    · exact hexLowerFacts _ q4
    · exact colonFacts
    · exact hexLowerFacts _ q5
    · exact hexLowerFacts _ q6
    · exact colonFacts
    · exact hexLowerFacts _ q7
    · exact hexLowerFacts _ q8
    · exact colonFacts
    · exact hexLowerFacts _ q9
    · exact hexLowerFacts _ q10
    · exact colonFacts
    · exact hexLowerFacts _ q11
    · exact hexLowerFacts _ q12
  have hmap := mapIdOf pyLowerChar _ (fun c hc => (hmem c hc).1)
  have hint : normIntermediate [a1, a2, ':', b1, b2, ':', c1, c2, ':',
      d1, d2, ':', e1, e2, ':', f1, f2] =
      [a1, a2, ':', b1, b2, ':', c1, c2, ':', d1, d2, ':',
       e1, e2, ':', f1, f2] := by
    rw [normIntermediateLower _ (by
      rw [hmap]
      intro c hc
      exact ⟨(hmem c hc).2.1, (hmem c hc).2.2.1, (hmem c hc).2.2.2⟩), hmap]
  simp only [normalizeChars, hint]
  simp

/-- Normalization of a 12-hex-digit candidate: lowercase it and insert a
colon after every two characters; the result is canonical and 17
characters long. -/
theorem normHex12 (cs : List Char) (h12 : cs.length = 12)
    (hhex : ∀ c ∈ cs, isHexAnyDigit c = true) :
    normalizeChars cs = some (insertColons (cs.map pyLowerChar)) ∧
    isCanonicalMac (insertColons (cs.map pyLowerChar)) = true ∧
    (insertColons (cs.map pyLowerChar)).length = 17 := by
  have hplain : ∀ c ∈ cs.map pyLowerChar,
      pyIsSpace c = false ∧ c ≠ '-' ∧ c ≠ ' ' := by
    intro c hc
    obtain ⟨x, hx, rfl⟩ := List.mem_map.mp hc
    obtain ⟨-, h2, h3, h4⟩ := hexAnyFacts x (hhex x hx)
    exact ⟨h2, h3, h4⟩
  have hint := normIntermediateLower cs hplain
  obtain ⟨x1, x2, x3, x4, x5, x6, x7, x8, x9, x10, x11, x12, rfl⟩ :=
    destruct12 cs h12
  have k1 := (hexAnyFacts x1 (hhex x1 (by simp))).1
  have k2 := (hexAnyFacts x2 (hhex x2 (by simp))).1
  have k3 := (hexAnyFacts x3 (hhex x3 (by simp))).1
  have k4 := (hexAnyFacts x4 (hhex x4 (by simp))).1
  have k5 := (hexAnyFacts x5 (hhex x5 (by simp))).1
  have k6 := (hexAnyFacts x6 (hhex x6 (by simp))).1
  have k7 := (hexAnyFacts x7 (hhex x7 (by simp))).1
  have k8 := (hexAnyFacts x8 (hhex x8 (by simp))).1
  have k9 := (hexAnyFacts x9 (hhex x9 (by simp))).1
  have k10 := (hexAnyFacts x10 (hhex x10 (by simp))).1
  have k11 := (hexAnyFacts x11 (hhex x11 (by simp))).1
  have k12 := (hexAnyFacts x12 (hhex x12 (by simp))).1
  refine ⟨?_, ?_, ?_⟩
  · simp only [normalizeChars, hint]
    simp [insertColons]
  · simp only [List.map_cons, List.map_nil, insertColons, isCanonicalMac]
    simp [k1, k2, k3, k4, k5, k6, k7, k8, k9, k10, k11, k12]
  · simp [insertColons]

/-- Normalization of an `ipconfig`-style hyphen-separated candidate
yields a canonical address. -/
theorem normHyphen (cs : List Char) (h : isHyphenMacAny cs = true) :
    ∃ m, normalizeChars cs = some m ∧ isCanonicalMac m = true := by
  obtain ⟨a1, a2, b1, b2, c1, c2, d1, d2, e1, e2, f1, f2, rfl,
    q1, q2, q3, q4, q5, q6, q7, q8, q9, q10, q11, q12⟩ := hyphenDestruct cs h
  have k1 := hexAnyFacts a1 q1
  have k2 := hexAnyFacts a2 q2
  have k3 := hexAnyFacts b1 q3
  have k4 := hexAnyFacts b2 q4
  have k5 := hexAnyFacts c1 q5
  have k6 := hexAnyFacts c2 q6
  have k7 := hexAnyFacts d1 q7
  have k8 := hexAnyFacts d2 q8
  have k9 := hexAnyFacts e1 q9
  have k10 := hexAnyFacts e2 q10
  have k11 := hexAnyFacts f1 q11
  have k12 := hexAnyFacts f2 q12
  have pld : pyLowerChar '-' = '-' := by decide
  have hint : normIntermediate [a1, a2, '-', b1, b2, '-', c1, c2, '-',
      d1, d2, '-', e1, e2, '-', f1, f2] =
      [pyLowerChar a1, pyLowerChar a2, ':', pyLowerChar b1, pyLowerChar b2,
       ':', pyLowerChar c1, pyLowerChar c2, ':', pyLowerChar d1,
       pyLowerChar d2, ':', pyLowerChar e1, pyLowerChar e2, ':',
       pyLowerChar f1, pyLowerChar f2] := by
    simp [normIntermediate, pyStrip, pld,
      k1, k2, k3, k4, k5, k6, k7, k8, k9, k10, k11, k12]
  refine ⟨[pyLowerChar a1, pyLowerChar a2, ':', pyLowerChar b1, pyLowerChar b2,
    ':', pyLowerChar c1, pyLowerChar c2, ':', pyLowerChar d1, pyLowerChar d2,
    ':', pyLowerChar e1, pyLowerChar e2, ':', pyLowerChar f1, pyLowerChar f2],
    ?_, ?_⟩
  · simp only [normalizeChars, hint]
    simp
  · simp only [isCanonicalMac]
    simp [k1, k2, k3, k4, k5, k6, k7, k8, k9, k10, k11, k12]

/-- If the probe loop returns a candidate, some probe in the list
produced exactly that candidate. -/
theorem tryFuncsSomeMem (l : List (ProbeId × ProbeOutcome)) (c : List Char)
    (h : (tryFuncs l).1 = some c) :
    ∃ id, (id, ProbeOutcome.value (some c)) ∈ l := by
  induction l with
  | nil => simp [tryFuncs] at h
  | cons p rest ih =>
    obtain ⟨i, o⟩ := p
    match o with
    | .raised =>
      rw [show tryFuncs ((i, ProbeOutcome.raised) :: rest) =
          ((tryFuncs rest).1, i :: (tryFuncs rest).2) from rfl] at h
      obtain ⟨id, hid⟩ := ih h
      exact ⟨id, List.mem_cons_of_mem _ hid⟩
    | .value none =>
      rw [show tryFuncs ((i, ProbeOutcome.value none) :: rest) =
          ((tryFuncs rest).1, i :: (tryFuncs rest).2) from rfl] at h
      obtain ⟨id, hid⟩ := ih h
      exact ⟨id, List.mem_cons_of_mem _ hid⟩
    | .value (some m) =>
      rw [show tryFuncs ((i, ProbeOutcome.value (some m)) :: rest) =
          (some m, [i]) from rfl] at h
      simp only [Option.some.injEq] at h
      subst h
      exact ⟨i, List.mem_cons_self _ _⟩

/-- A candidate of the shape its probe can produce normalizes to nothing
or to a canonical address. -/
theorem candidateNormCanonical (id : ProbeId) (c m : List Char)
    (hshape : candidateShapeOk id c = true)
    (hnorm : normalizeChars c = some m) :
    isCanonicalMac m = true := by
  cases id with
  | windows_get_remote_mac =>
    simp only [candidateShapeOk, Bool.and_eq_true, decide_eq_true_eq,
      List.all_eq_true] at hshape
    obtain ⟨h12, hall⟩ := hshape
    obtain ⟨he, hc, -⟩ := normHex12 c h12
      (fun x hx => hexLowerAny x (hall x hx))
    rw [he] at hnorm
    simp only [Option.some.injEq] at hnorm
    rw [← hnorm]
    exact hc
  | windows_ipconfig_by_interface =>
    obtain ⟨m2, he, hc⟩ := normHyphen c hshape
    rw [he] at hnorm
    simp only [Option.some.injEq] at hnorm
    rw [← hnorm]
    exact hc
  | unix_ip_arp_command =>
    rw [normCanonical c hshape] at hnorm
    simp only [Option.some.injEq] at hnorm
    rw [← hnorm]
    exact hshape
  | unix_ip_cat_arp =>
    rw [normCanonical c hshape] at hnorm
    simp only [Option.some.injEq] at hnorm
    rw [← hnorm]
    exact hshape
  | unix_ip_ip_command => simp [candidateShapeOk] at hshape
  | unix_ifconfig_by_interface =>
    simp only [candidateShapeOk, Bool.or_eq_true, decide_eq_true_eq] at hshape
    rcases hshape with rfl | rfl
    · rw [show normalizeChars ("HWaddr".data) = none from by decide] at hnorm
      exact absurd hnorm (by simp)
    · rw [show normalizeChars ("Ether".data) = none from by decide] at hnorm
      exact absurd hnorm (by simp)
  | unix_interface_ip_command =>
    rw [normCanonical c hshape] at hnorm
    simp only [Option.some.injEq] at hnorm
    rw [← hnorm]
    exact hshape
  | unix_netstat_by_interface =>
    rw [normCanonical c hshape] at hnorm
    simp only [Option.some.injEq] at hnorm
    rw [← hnorm]
    exact hshape
  | unix_fcntl_by_interface =>
    rw [normCanonical c hshape] at hnorm
    simp only [Option.some.injEq] at hnorm
    rw [← hnorm]
    exact hshape
  | unix_lanscan_interface =>
    simp only [candidateShapeOk, decide_eq_true_eq] at hshape
    rw [normShort c (by omega)] at hnorm
    exact absurd hnorm (by simp)

/-- If the probe loop plus normalization produced a value, the value is
canonical, provided the probes only yield candidates of their sources'
shapes. -/
theorem finishProbesCanonical (env : Env) (pings : List PingCall)
    (funcs : List ProbeId) (arg : List Char)
    (hshape : ∀ id a, shapeOutcomeOk id (probeOutcome env id a) = true)
    (m : List Char)
    (hres : (finishProbes env pings funcs arg).result = .ok (some m)) :
    isCanonicalMac m = true := by
  unfold finishProbes at hres
  simp only [Except.ok.injEq] at hres
  rcases hr : (tryFuncs (funcs.map fun f => (f, probeOutcome env f arg))).1
    with _ | c
  · rw [hr] at hres
    simp at hres
  · rw [hr] at hres
    obtain ⟨id, hid⟩ := tryFuncsSomeMem _ c hr
    obtain ⟨f, hf, hfe⟩ := List.mem_map.mp hid
    simp only [Prod.mk.injEq] at hfe
    obtain ⟨rfl, hout⟩ := hfe
    have hs := hshape f arg
    rw [hout] at hs
    simp only [shapeOutcomeOk] at hs
    exact candidateNormCanonical f c m hs hres

/-- Branch dispatch preserves canonicality of any produced value. -/
theorem afterPingCanonical (env : Env) (pings : List PingCall)
    (interface ip ip6 : Option (List Char))
    (hshape : ∀ id a, shapeOutcomeOk id (probeOutcome env id a) = true)
    (m : List Char)
    (hres : (afterPing env pings interface ip ip6).result = .ok (some m)) :
    isCanonicalMac m = true := by
  unfold afterPing at hres
  rcases ip with _ | ipa
  · rcases ip6 with _ | ip6a
    · cases harg : resolveIfaceArg env interface with
      | error e =>
        rw [harg] at hres
        simp at hres
      | ok arg =>
        rw [harg] at hres
        exact finishProbesCanonical env pings _ arg hshape m hres
    · cases h6 : env.hasIpv6 with
      | false =>
        rw [h6] at hres
        simp at hres
      | true =>
        rw [h6] at hres
        exact finishProbesCanonical env pings [] ip6a hshape m hres
  · exact finishProbesCanonical env pings _ ipa hshape m hres

/-- The priming step preserves canonicality of any produced value. -/
theorem afterResolveCanonical (env : Env) (interface ip ip6 : Option (List Char))
    (nr : Bool)
    (hshape : ∀ id a, shapeOutcomeOk id (probeOutcome env id a) = true)
    (m : List Char)
    (hres : (afterResolve env interface ip ip6 nr).result = .ok (some m)) :
    isCanonicalMac m = true := by
  rcases nr with _ | _
  · exact afterPingCanonical env [] interface ip ip6 hshape m hres
  · have he : afterResolve env interface ip ip6 true =
        (match env.pingResult (mkPingCall env.isWin32 ip ip6) with
         | .error e =>
           { pings := [mkPingCall env.isWin32 ip ip6], warned := false,
             invoked := [], result := .error e }
         | .ok _ =>
           afterPing env [mkPingCall env.isWin32 ip ip6] interface ip ip6) :=
      rfl
    rw [he] at hres
    cases hp : env.pingResult (mkPingCall env.isWin32 ip ip6) with
    | error e =>
      rw [hp] at hres
      simp at hres
    | ok u =>
      rw [hp] at hres
      exact afterPingCanonical env [mkPingCall env.isWin32 ip ip6]
        interface ip ip6 hshape m hres

/-- On a single character of `_find_mac`'s loop,
`str(line).lower().rstrip().split()` is empty or one single-character
word. -/
theorem lineWordsCases (c : Char) :
    lineWords c = [] ∨ lineWords c = [[pyLowerChar c]] := by
  by_cases hsp : pyIsSpace (pyLowerChar c) = true
  · left
    simp [lineWords, pyRStrip, pySplit, pySplitAux, hsp]
  · right
    simp [lineWords, pyRStrip, pySplit, pySplitAux, hsp]

/-- The inner `_find_mac` loop over a one-single-character-word list
never matches an identifier longer than one character. -/
theorem findMacInnerSingleton (iface : List Char) (hlen : 1 < iface.length)
    (w : Char) :
    findMacInner [[w]] [iface] (fun _ => 0) = .ok none := by
  have hne : ¬([w] = iface) := by
    intro he
    rw [← he] at hlen
    simp at hlen
  simp [findMacInner, findMacIdx, hne]

/-- C1: for every resolution call of `get_mac_address` whose probes only
yield candidates of the shapes their source implementations can produce,
the value returned to the caller is either absent or a canonical MAC
address — six lowercase two-hex-digit groups joined by colons, exactly 17
characters; no partial or malformed value is returned. -/
theorem getmac_c1 (env : Env) (interface ip ip6 hostname : Option (List Char))
    (nr : Bool)
    (hshape : ∀ id a, shapeOutcomeOk id (probeOutcome env id a) = true)
    (m : List Char)
    (hres : (get_mac_address env interface ip ip6 hostname nr).result =
      .ok (some m)) :
    isCanonicalMac m = true := by
  unfold get_mac_address at hres
  cases hh : resolveHost env ip hostname with
  | error e =>
    rw [hh] at hres
    simp at hres
  | ok ip2 =>
    rw [hh] at hres
    exact afterResolveCanonical env interface ip2 ip6 nr hshape m hres

/-- C1 witness: a concrete shape-respecting run returning a value, and
that value is canonical. -/
theorem getmac_c1_witness : isCanonicalMac ("aa:bb:cc:dd:ee:ff".data) = true :=
  getmac_c1 envSecondProbeWins (some ("eth0".data)) none none none false
    (by intro id a; cases id <;> rfl)
    ("aa:bb:cc:dd:ee:ff".data) rfl

/-- C2 (code bug): `get_mac_address` can raise.  With a failing priming
ping (`CalledProcessError` from the unguarded `_popen` at lines 59-66) or
a failing hostname resolution (unguarded `socket.gethostbyname` at line
54) the exception escapes to the caller instead of being absorbed into
`None`, contradicting the docstring "Exceptions will be handled silently
and returned as a None". -/
theorem getmac_c2_bug :
    (get_mac_address envAllFail none (some ("192.0.2.1".data)) none none
      true).result = .error () ∧
    (get_mac_address envAllFail none none none (some ("server.invalid".data))
      true).result = .error () :=
  ⟨rfl, rfl⟩

/-- C3: the engine's probe loop runs the list in order, treats a raising
probe and a `None`-returning probe identically by skipping to the next,
and stops at the first probe yielding a candidate; the probes after it
are never invoked. -/
theorem getmac_c3 (pre post : List (ProbeId × ProbeOutcome)) (i : ProbeId)
    (m : List Char)
    (hpre : ∀ p ∈ pre,
      p.2 = ProbeOutcome.raised ∨ p.2 = ProbeOutcome.value none) :
    tryFuncs (pre ++ (i, ProbeOutcome.value (some m)) :: post) =
      (some m, pre.map Prod.fst ++ [i]) := by
  induction pre with
  | nil => rfl
  | cons p rest ih =>
    obtain ⟨j, o⟩ := p
    have ho := hpre (j, o) (List.mem_cons_self _ _)
    rcases ho with ho | ho <;> simp only at ho <;> subst ho <;>
      simp [tryFuncs, List.cons_append,
        ih (fun q hq => hpre q (List.mem_cons_of_mem _ hq))]

/-- C3 witness: probe 1 raises, probe 2 succeeds, probe 3 is present but
not invoked. -/
theorem getmac_c3_witness :
    tryFuncs [(ProbeId.unix_ifconfig_by_interface, ProbeOutcome.raised),
      (ProbeId.unix_interface_ip_command,
        ProbeOutcome.value (some ("aa:bb:cc:dd:ee:ff".data))),
      (ProbeId.unix_netstat_by_interface,
        ProbeOutcome.value (some ("11:22:33:44:55:66".data)))] =
    (some ("aa:bb:cc:dd:ee:ff".data),
     [ProbeId.unix_ifconfig_by_interface,
      ProbeId.unix_interface_ip_command]) :=
  getmac_c3 [(ProbeId.unix_ifconfig_by_interface, ProbeOutcome.raised)]
    [(ProbeId.unix_netstat_by_interface,
      ProbeOutcome.value (some ("11:22:33:44:55:66".data)))]
    ProbeId.unix_interface_ip_command ("aa:bb:cc:dd:ee:ff".data)
    (by
      intro p hp
      simp only [List.mem_singleton] at hp
      subst hp
      exact Or.inl rfl)

/-- C4 (code bug): the priming invocation is issued whenever
`network_request` is true, even when no IP selector is present (on Unix
it runs `ping6 -c 1 None`, formatting Python `None` into the argument),
and its failure is not ignored: the `CalledProcessError` escapes.  The
source's own TODO at line 50 acknowledges the first half. -/
theorem getmac_c4_bug :
    (get_mac_address envPingOk (some ("eth0".data)) none none none
      true).pings =
      [{ cmd := "ping6".data, args := some ("-c 1 None".data) }] ∧
    (get_mac_address envAllFail (some ("eth0".data)) none none none
      true).result = .error () :=
  ⟨by decide, rfl⟩

/-- C5 counterexample: when hostname resolution fails the call does not
return absence — the exception escapes (the result is an error, not
`None`). -/
theorem getmac_c5_cex :
    (get_mac_address envAllFail none none none (some ("host.invalid".data))
      true).result = .error () ∧
    (get_mac_address envAllFail none none none (some ("host.invalid".data))
      true).result ≠ Except.ok none := by
  refine ⟨rfl, ?_⟩
  rw [show (get_mac_address envAllFail none none none
    (some ("host.invalid".data)) true).result = Except.error () from rfl]
  exact fun hcon => Except.noConfusion hcon

/-- C5 (amended): when hostname resolution fails, the failure propagates
to the caller as an uncaught exception (not as `None`), and no priming
ping is issued and no probe is invoked. -/
theorem getmac_c5 (env : Env) (interface ip ip6 : Option (List Char))
    (h : List Char) (nr : Bool)
    (hfail : env.gethostbyname h = .error ()) :
    get_mac_address env interface ip ip6 (some h) nr =
      { pings := [], warned := false, invoked := [], result := .error () } := by
  simp [get_mac_address, resolveHost, hfail]

/-- C5 witness: a concrete failing resolution. -/
theorem getmac_c5_witness :
    get_mac_address envAllFail none none none (some ("a.invalid".data)) true =
      { pings := [], warned := false, invoked := [], result := .error () } :=
  getmac_c5 envAllFail none none none ("a.invalid".data) true rfl

/-- C6 counterexample: on the intermediate "zzzzzzzzzzzz" — twelve
characters, none of them hex — the spec's condition is false, yet the
code applies the colon-insertion step (the length-12 test is the only
check) and even returns the non-hex result. -/
theorem getmac_c6_cex :
    codeColonCondition ("zzzzzzzzzzzz".data) = true ∧
    specColonCondition ("zzzzzzzzzzzz".data) = false ∧
    normalizeChars ("zzzzzzzzzzzz".data) = some ("zz:zz:zz:zz:zz:zz".data) :=
  ⟨by decide, by decide, by decide⟩

/-- C6 (amended): the colon-insertion step is applied exactly when the
intermediate result has length 12, regardless of whether it contains
colons or consists of hex characters; in particular it is applied
whenever the intermediate has no colons and is exactly 12 hex characters,
but also for any other 12-character intermediate. -/
theorem getmac_c6 (raw : List Char) :
    (specColonCondition raw = true → codeColonCondition raw = true) ∧
    (codeColonCondition raw = true →
      normalizeChars raw = some (insertColons (normIntermediate raw))) ∧
    (codeColonCondition raw = false →
      normalizeChars raw =
        if (normIntermediate raw).length = 17 then some (normIntermediate raw)
        else none) := by
  refine ⟨?_, ?_, ?_⟩
  · intro h
    simp only [specColonCondition, Bool.and_eq_true, decide_eq_true_eq] at h
    simp only [codeColonCondition, decide_eq_true_eq]
    exact h.1.2
  · intro h
    simp only [codeColonCondition, decide_eq_true_eq] at h
    obtain ⟨x1, x2, x3, x4, x5, x6, x7, x8, x9, x10, x11, x12, he⟩ :=
      destruct12 _ h
    simp only [normalizeChars]
    rw [he]
    simp [insertColons]
  · intro h
    simp only [codeColonCondition, decide_eq_false_iff_not] at h
    simp only [normalizeChars]
    rw [if_neg h]
    by_cases h17 : (normIntermediate raw).length = 17
    · rw [if_neg (fun hc => hc h17), if_pos h17]
    · rw [if_pos h17, if_neg h17]

/-- C6 witness: the spec-condition input "aabbccddeeff" satisfies the
code condition and gets colons inserted. -/
theorem getmac_c6_witness :
    codeColonCondition ("aabbccddeeff".data) = true ∧
    normalizeChars ("aabbccddeeff".data) =
      some (insertColons (normIntermediate ("aabbccddeeff".data))) := by
  have h := getmac_c6 ("aabbccddeeff".data)
  have h1 := h.1 (by decide)
  exact ⟨h1, h.2.1 h1⟩

/-- C7: every raw candidate of exactly 12 hexadecimal characters
normalizes to the 17-character form obtained by lowercasing and inserting
a colon after every two characters. -/
theorem getmac_c7 (raw : List Char) (h12 : raw.length = 12)
    (hhex : ∀ c ∈ raw, isHexAnyDigit c = true) :
    normalizeChars raw = some (insertColons (raw.map pyLowerChar)) ∧
    (insertColons (raw.map pyLowerChar)).length = 17 :=
  ⟨(normHex12 raw h12 hhex).1, (normHex12 raw h12 hhex).2.2⟩

/-- C7 witness: "aabbccddeeff" normalizes to "aa:bb:cc:dd:ee:ff". -/
theorem getmac_c7_witness :
    normalizeChars ("aabbccddeeff".data) = some ("aa:bb:cc:dd:ee:ff".data) := by
  have h := getmac_c7 ("aabbccddeeff".data) (by decide) (by decide)
  exact h.1.trans (by decide)

/-- C8: normalization is idempotent — an already-canonical address is
returned unchanged. -/
theorem getmac_c8 (cs : List Char) (h : isCanonicalMac cs = true) :
    normalizeChars cs = some cs :=
  normCanonical cs h

/-- C8 witness: the canonical address "aa:bb:cc:dd:ee:ff" is a fixed
point of normalization. -/
theorem getmac_c8_witness :
    normalizeChars ("aa:bb:cc:dd:ee:ff".data) =
      some ("aa:bb:cc:dd:ee:ff".data) :=
  getmac_c8 ("aa:bb:cc:dd:ee:ff".data) (by decide)

/-- C9 (code bug): with an IPv6 selector on a host without IPv6 support
and `network_request=True` (the default), the unguarded priming `ping6`
runs before the IPv6-support check; when it fails — which is what will
happen on such a host — the exception escapes and no warning is issued.
Only with the priming disabled does the call behave as the claim states
(warning plus `None`, no probe invoked). -/
theorem getmac_c9_bug :
    (get_mac_address envNoIpv6 none none (some ("ff02::1".data)) none
      true).result = .error () ∧
    (get_mac_address envNoIpv6 none none (some ("ff02::1".data)) none
      true).warned = false ∧
    get_mac_address envNoIpv6 none none (some ("ff02::1".data)) none false =
      { pings := [], warned := true, invoked := [], result := .ok none } :=
  ⟨rfl, rfl, rfl⟩

/-- C10: the lanscan matcher iterates the command output character by
character, so every word it compares against the interface name is a
single character; consequently, for any interface name longer than one
character, `_unix_lanscan_interface` returns nothing on every output. -/
theorem getmac_c10 (output iface : List Char) (hlen : 1 < iface.length) :
    unix_lanscan_interface output iface = .ok none ∧
    ∀ c : Char, ∀ w ∈ lineWords c, w.length = 1 := by
  refine ⟨?_, ?_⟩
  · unfold unix_lanscan_interface
    induction output with
    | nil => rfl
    | cons c rest ih =>
      have hw : findMacInner (lineWords c) [iface] (fun _ => 0) = .ok none := by
        rcases lineWordsCases c with hl | hl
        · rw [hl]; rfl
        · rw [hl]; exact findMacInnerSingleton iface hlen (pyLowerChar c)
      simp [find_mac, hw, ih]
  · intro c w hwmem
    rcases lineWordsCases c with hl | hl
    · rw [hl] at hwmem
      simp at hwmem
    · rw [hl] at hwmem
      simp only [List.mem_singleton] at hwmem
      subst hwmem
      rfl

/-- C10 witness: a concrete lanscan output with the interface name
"eth0" yields nothing. -/
theorem getmac_c10_witness :
    unix_lanscan_interface ("lan0 0x0800 something".data) ("eth0".data) =
      .ok none :=
  (getmac_c10 ("lan0 0x0800 something".data) ("eth0".data) (by decide)).1

end Getmac

-- quick sanity checks of the embedding on the spec's scenarios
example : (Getmac.get_mac_address Getmac.envAllFail none
    (some ("192.0.2.1".data)) none none true).result = .error () := rfl
example : (Getmac.get_mac_address Getmac.envAllFail (some ("eth0".data))
    none none none true).pings =
    [{ cmd := "ping6".data, args := some ("-c 1 None".data) }] := by decide
example : (Getmac.get_mac_address Getmac.envNoIpv6 none none
    (some ("ff02::1".data)) none false) =
    { pings := [], warned := true, invoked := [], result := .ok none } := rfl
example : (Getmac.get_mac_address Getmac.envSecondProbeWins
    (some ("eth0".data)) none none none false).result =
    .ok (some ("aa:bb:cc:dd:ee:ff".data)) := rfl
example : (Getmac.get_mac_address Getmac.envSecondProbeWins
    (some ("eth0".data)) none none none false).invoked =
    [.unix_ifconfig_by_interface, .unix_interface_ip_command] := by decide
example : Getmac.unix_lanscan_interface ("lan0 something".data)
    ("eth0".data) = .ok none := rfl
example : Getmac.unix_lanscan_interface ("e 5".data) ("e".data) =
    .ok (some 14) := rfl
example : Getmac.normalizeChars ("AA-BB-CC-DD-EE-FF".data) =
    some ("aa:bb:cc:dd:ee:ff".data) := by decide
example : Getmac.normalizeChars ("aabbccddeeff".data) =
    some ("aa:bb:cc:dd:ee:ff".data) := by decide
example : Getmac.normalizeChars ("aa:bb:cc".data) = none := by decide
example : Getmac.normalizeChars ("aa:bb:cc:dd:ee:ff".data) =
    some ("aa:bb:cc:dd:ee:ff".data) := by decide
example : Getmac.normalizeChars ("HWaddr".data) = none := by decide
example : Getmac.isCanonicalMac ("aa:bb:cc:dd:ee:ff".data) = true := by decide
example : Getmac.normalizeChars ("  aa:bb:cc:dd:ee:ff ".data) =
    some ("aa:bb:cc:dd:ee:ff".data) := by decide
example : Getmac.normalizeChars ("zzzzzzzzzzzz".data) =
    some ("zz:zz:zz:zz:zz:zz".data) := by decide
